import Mathlib

/-!
Verification of the apinalytics_client batching event sender (`sender.go`).

The Go source is shallowly embedded as follows.

* `AnalyticsEvent` mirrors the Go struct of the same name.  Go's
  `encoding/json` serialization of an event, with the struct tags exactly as
  written in the source (where the `,omitempty` suffix sits *outside* the
  quoted tag value and is therefore ignored by Go's tag parser), is modelled
  by `marshalEvent` / `marshalBatch` producing a `Json` value.
* `Sender` models the mutable batching state owned by the background
  goroutine: the `events` slice and the `count` field.  The configuration
  strings (`applicationId`, `writeKey`, `url`) and the two channels are not
  part of this state; the channel's content is passed to the run loop as an
  explicit list, and a queue element is `Option AnalyticsEvent` because the
  Go channel carries `*AnalyticsEvent` pointers which may be nil.
* `Sender.send` embeds the Go method `send`: it takes the outcome of the
  marshalling / HTTP interaction as an explicit `TransportResult` argument
  and returns the new state, the batch handed to the transport (if any),
  and the log lines produced.  The `defer sender.reset()` in the source is
  reflected by every non-empty branch returning the reset state.
* `Sender.add` embeds the Go method `add` (nil check, append, increment,
  threshold-triggered `send`).
* `drainLoop` embeds the inner `Loop` of `run`: the non-blocking receive is
  resolved by a `fuel` argument giving the number of receives the scheduler
  lets succeed before the `default` branch fires (the queue being
  momentarily empty); a nil event breaks the loop, as in the source.
* `runLoopF` embeds the outer `for event = range sender.channel` loop; it
  is driven by the list of events enqueued before `close()` and by a
  schedule `fuels` giving the drain fuel of each outer iteration.  A fuel
  budget (always at least the queue length) makes the recursion structural.
* `Sender.run` is the whole background loop started from the freshly reset
  state produced by `NewSender`; its result is the list of batches passed
  to the transport, in call order.
-/

namespace Apinalytics

/-- The size of the queue to the background goroutine (`channel_size`). -/
def channel_size : Nat := 100

/-- The background routine sends batches of events up to this size
(`send_threshold`). -/
def send_threshold : Nat := 90

/-- Embeds the Go struct `AnalyticsEvent`.  `data` is `none` when the Go map
is nil and `some` of its entries otherwise. -/
structure AnalyticsEvent where
  timestamp : Int
  consumerId : String
  method : String
  url : String
  function : String
  responseUS : Int
  statusCode : Int
  data : Option (List (String × String))
  deriving DecidableEq, Repr

/-- JSON values, for modelling `encoding/json` output. -/
inductive Json where
  | null : Json
  | num (n : Int) : Json
  | str (s : String) : Json
  | arr (elems : List Json) : Json
  | obj (fields : List (String × Json)) : Json

/-- `json.Marshal` on one `*AnalyticsEvent`, following the struct tags as Go
actually parses them: in `` `json:"function",omitempty` `` the `,omitempty`
is outside the quoted tag value, so the option is ignored and the field is
always emitted; likewise for `data`, where a nil map marshals to `null`. -/
def marshalEvent (e : AnalyticsEvent) : Json :=
  .obj [("timestamp", .num e.timestamp),
        ("consumer_id", .str e.consumerId),
        ("method", .str e.method),
        ("url", .str e.url),
        ("function", .str e.function),
        ("response_us", .num e.responseUS),
        ("status_code", .num e.statusCode),
        ("data", match e.data with
                 | none => .null
                 | some kvs => .obj (kvs.map fun kv => (kv.1, .str kv.2)))]

/-- Modelled from the spec: the serialization the spec describes, with the
`function` field omitted when empty and the `data` field omitted when empty
(what the source's struct tags would mean had `,omitempty` been inside the
quoted tag value).  Used only to compare against `marshalEvent`. -/
def marshalEventOmitEmpty (e : AnalyticsEvent) : Json :=
  .obj ([("timestamp", Json.num e.timestamp),
         ("consumer_id", Json.str e.consumerId),
         ("method", Json.str e.method),
         ("url", Json.str e.url)]
        ++ (if e.function = "" then [] else [("function", Json.str e.function)])
        ++ [("response_us", Json.num e.responseUS),
            ("status_code", Json.num e.statusCode)]
        ++ (match e.data with
            | none => []
            | some [] => []
            | some kvs => [("data", Json.obj (kvs.map fun kv => (kv.1, .str kv.2)))]))

/-- The keys of a JSON object (the field names present in the output). -/
def Json.keys : Json → List String
  | .obj fields => fields.map Prod.fst
  | _ => []

/-- `json.Marshal(sender.events)`: a JSON array of the event objects. -/
def marshalBatch (es : List AnalyticsEvent) : Json :=
  .arr (es.map marshalEvent)

/-- The batching state owned by the background goroutine: the `events` slice
and the `count` field of the Go `Sender`. -/
structure Sender where
  events : List AnalyticsEvent
  count : Nat
  deriving DecidableEq, Repr

/-- Embeds `sender.reset()`. -/
def Sender.reset (_s : Sender) : Sender :=
  { events := [], count := 0 }

/-- The state `NewSender` leaves the accumulator in (it calls `reset`). -/
def newSender : Sender :=
  Sender.reset { events := [], count := 0 }

/-- Outcome of the marshalling / HTTP interaction inside `send`, supplied by
the environment. -/
inductive TransportResult where
  | marshalError
  | requestBuildError
  | connectionError
  | status (code : Nat)
  deriving DecidableEq, Repr

/-- Result of one call to `sender.send()`: the state on return, the batch
handed to the transport (`none` when the empty-batch guard fired), and the
log lines written. -/
structure SendResult where
  state : Sender
  sent : Option (List AnalyticsEvent)
  log : List String
  deriving DecidableEq, Repr

/-- Embeds `sender.send()`.  The `if sender.count == 0` guard returns
without touching anything; every other path runs under
`defer sender.reset()`, so the state on return is the reset state whatever
the transport outcome, and the batch serialized and posted is the whole
`events` slice. -/
def Sender.send (s : Sender) (r : TransportResult) : SendResult :=
  if s.count = 0 then
    { state := s, sent := none, log := [] }
  else
    match r with
    | .marshalError =>
        { state := s.reset, sent := some s.events,
          log := ["Couldn't marshal json for analytics."] }
    | .requestBuildError =>
        { state := s.reset, sent := some s.events,
          log := ["Failed to build analytics POST."] }
    | .connectionError =>
        { state := s.reset, sent := some s.events,
          log := ["Failed to post analytics events."] }
    | .status code =>
        if code ≠ 200 then
          { state := s.reset, sent := some s.events,
            log := ["Failure return for analytics post."] }
        else
          { state := s.reset, sent := some s.events,
            log := ["analytics sent"] }

/-- Result of one call to `sender.add(event)`: the state on return, the
boolean the method returns, and the batch sent if the threshold fired. -/
structure AddResult where
  state : Sender
  added : Bool
  sent : Option (List AnalyticsEvent)
  deriving DecidableEq, Repr

/-- Embeds `sender.add(event)`: nil events are rejected with `false`;
otherwise the event is appended, the count incremented, and if the count now
exceeds `send_threshold` the batch is sent at once. -/
def Sender.add (s : Sender) (event : Option AnalyticsEvent) (r : TransportResult) :
    AddResult :=
  match event with
  | none => { state := s, added := false, sent := none }
  | some e =>
      let s' : Sender := { events := s.events ++ [e], count := s.count + 1 }
      if s'.count > send_threshold then
        let res := s'.send r
        { state := res.state, added := true, sent := res.sent }
      else
        { state := s', added := true, sent := none }

/-- Result of the inner drain `Loop` of `run`: the state at `break Loop`,
the queue elements not yet received, and the batches sent mid-drain by
threshold-triggered flushes. -/
structure DrainResult where
  state : Sender
  remaining : List (Option AnalyticsEvent)
  batches : List (List AnalyticsEvent)
  deriving DecidableEq, Repr

/-- Embeds the inner `Loop` of `run`.  `fuel` is the number of receives the
scheduler lets succeed before the `default` case fires because the queue is
momentarily empty.  A received nil makes `add` return `false`, which breaks
the loop with the nil consumed; a successful `add` continues draining. -/
def drainLoop (r : TransportResult) :
    Sender → List (Option AnalyticsEvent) → Nat → DrainResult
  | s, q, 0 => { state := s, remaining := q, batches := [] }
  | s, [], _ + 1 => { state := s, remaining := [], batches := [] }
  | s, e :: q, fuel + 1 =>
      let a := s.add e r
      if a.added then
        let d := drainLoop r a.state q fuel
        { state := d.state, remaining := d.remaining,
          batches := a.sent.toList ++ d.batches }
      else
        { state := a.state, remaining := q, batches := [] }

/-- Embeds the outer `for event = range sender.channel` loop of `run`.  The
first argument is a structural fuel bounding the number of outer iterations;
since every iteration consumes at least one queue element, a fuel of the
queue's length is always enough.  Each iteration receives one event
(blocking), `add`s it ignoring the result, drains with the scheduled fuel,
then calls `send` on whatever is batched.  When the channel is closed and
empty the range loop exits. -/
def runLoopF (r : TransportResult) :
    Nat → Sender → List (Option AnalyticsEvent) → List Nat →
    List (List AnalyticsEvent)
  | 0, _, _, _ => []
  | _ + 1, _, [], _ => []
  | fuel + 1, s, e :: q, fuels =>
      let a := s.add e r
      let d := drainLoop r a.state q (fuels.headD 0)
      let res := d.state.send r
      a.sent.toList ++ d.batches ++ res.sent.toList
        ++ runLoopF r fuel res.state d.remaining fuels.tail

/-- The whole background loop, started from the state `NewSender` builds:
given the transport outcome `r`, the events enqueued before `close()` (nil
pointers included) and the drain schedule, it returns the list of batches
passed to the transport, in call order. -/
def Sender.run (r : TransportResult) (q : List (Option AnalyticsEvent))
    (fuels : List Nat) : List (List AnalyticsEvent) :=
  runLoopF r q.length newSender q fuels

/-- The non-nil events of a queue, in order. -/
def someElems (q : List (Option AnalyticsEvent)) : List AnalyticsEvent :=
  q.filterMap id

/-- A sample event for concrete executions. -/
def ev (n : Int) : AnalyticsEvent :=
  { timestamp := n, consumerId := "c", method := "GET", url := "/x",
    function := "f", responseUS := 5, statusCode := 200, data := none }

/-- The implicit representation invariant: `count` equals the length of the
`events` slice. -/
def Inv (s : Sender) : Prop := s.count = s.events.length

/-- The bound maintained by threshold flushing: at most `send_threshold`
events are ever left batched. -/
def Bnd (s : Sender) : Prop := s.count ≤ send_threshold

example : Sender.run (.status 200) [some (ev 1), some (ev 2)] [1]
    = [[ev 1, ev 2]] := by decide

example : Sender.run (.status 200) [some (ev 1), some (ev 2)] [0]
    = [[ev 1], [ev 2]] := by decide

example : Sender.run (.status 200) [some (ev 1), none, some (ev 2)] [2]
    = [[ev 1], [ev 2]] := by decide

lemma send_state (s : Sender) (r : TransportResult) :
    (s.send r).state = if s.count = 0 then s else { events := [], count := 0 } := by
  cases r <;> simp only [Sender.send, Sender.reset] <;> split <;> (try split) <;> simp

lemma send_sent (s : Sender) (r : TransportResult) :
    (s.send r).sent = if s.count = 0 then none else some s.events := by
  cases r <;> simp only [Sender.send, Sender.reset] <;> split <;> (try split) <;> simp

lemma add_none (s : Sender) (r : TransportResult) :
    s.add none r = { state := s, added := false, sent := none } := rfl

lemma add_some (s : Sender) (e : AnalyticsEvent) (r : TransportResult) :
    s.add (some e) r =
      if s.count + 1 > send_threshold then
        { state := { events := [], count := 0 }, added := true,
          sent := some (s.events ++ [e]) }
      else
        { state := { events := s.events ++ [e], count := s.count + 1 },
          added := true, sent := none } := by
  simp only [Sender.add]
  split
  · simp [send_state, send_sent]
  · rfl

lemma someElems_nil : someElems [] = [] := rfl

lemma someElems_cons (e : Option AnalyticsEvent) (q : List (Option AnalyticsEvent)) :
    someElems (e :: q) = e.toList ++ someElems q := by
  cases e <;> simp [someElems]

lemma someElems_append (a b : List (Option AnalyticsEvent)) :
    someElems (a ++ b) = someElems a ++ someElems b := by
  simp [someElems]

lemma someElems_map_some (es : List AnalyticsEvent) :
    someElems (es.map some) = es := by
  simp [someElems]

lemma add_join (s : Sender) (e : Option AnalyticsEvent) (r : TransportResult) :
    ((s.add e r).sent.toList).flatten ++ (s.add e r).state.events
      = s.events ++ e.toList := by
  cases e
  · simp [add_none]
  · rw [add_some]; split <;> simp

lemma send_join (s : Sender) (r : TransportResult) :
    ((s.send r).sent.toList).flatten ++ (s.send r).state.events = s.events := by
  rw [send_state, send_sent]; split <;> simp

lemma send_flush (s : Sender) (r : TransportResult) (h : Inv s) :
    ((s.send r).sent.toList).flatten = s.events := by
  rw [send_sent]; split
  · rename_i h0
    simp only [Inv, h0] at h
    simp [List.eq_nil_of_length_eq_zero h.symm]
  · simp

lemma add_inv (s : Sender) (e : Option AnalyticsEvent) (r : TransportResult)
    (h : Inv s) : Inv (s.add e r).state := by
  cases e
  · simpa [add_none]
  · rw [add_some]; split <;> simp_all [Inv]

lemma send_inv (s : Sender) (r : TransportResult) (h : Inv s) :
    Inv (s.send r).state := by
  rw [send_state]; split <;> simp_all [Inv]

lemma add_bnd (s : Sender) (e : Option AnalyticsEvent) (r : TransportResult)
    (h : Bnd s) : Bnd (s.add e r).state := by
  cases e
  · simpa [add_none]
  · rw [add_some]; split
    · simp [Bnd]
    · rename_i hle
      simp only [Bnd] at *
      omega

lemma send_bnd (s : Sender) (r : TransportResult) (h : Bnd s) :
    Bnd (s.send r).state := by
  rw [send_state]; split
  · exact h
  · simp [Bnd]

lemma add_sent_len (s : Sender) (e : Option AnalyticsEvent) (r : TransportResult)
    (hi : Inv s) (hb : Bnd s) (b : List AnalyticsEvent)
    (h : (s.add e r).sent = some b) : b.length ≤ send_threshold + 1 := by
  unfold Inv at hi
  unfold Bnd at hb
  cases e
  · simp [add_none] at h
  · rw [add_some] at h
    split at h
    · simp only [Option.some.injEq] at h
      subst h
      simp only [List.length_append, List.length_cons, List.length_nil]
      omega
    · simp at h

lemma send_sent_len (s : Sender) (r : TransportResult)
    (hi : Inv s) (hb : Bnd s) (b : List AnalyticsEvent)
    (h : (s.send r).sent = some b) : b.length ≤ send_threshold + 1 := by
  unfold Inv at hi
  unfold Bnd at hb
  rw [send_sent] at h
  split at h
  · simp at h
  · simp only [Option.some.injEq] at h
    subst h
    omega

lemma add_sent_ne (s : Sender) (e : Option AnalyticsEvent) (r : TransportResult)
    (b : List AnalyticsEvent) (h : (s.add e r).sent = some b) : b ≠ [] := by
  cases e
  · simp [add_none] at h
  · rw [add_some] at h
    split at h
    · simp only [Option.some.injEq] at h
      subst h
      simp
    · simp at h

lemma send_sent_ne (s : Sender) (r : TransportResult) (hi : Inv s)
    (b : List AnalyticsEvent) (h : (s.send r).sent = some b) : b ≠ [] := by
  rw [send_sent] at h
  split at h
  · simp at h
  · rename_i h0
    simp only [Option.some.injEq] at h
    subst h
    intro hnil
    apply h0
    simp [Inv, hnil] at hi
    exact hi

lemma add_added (s : Sender) (e : AnalyticsEvent) (r : TransportResult) :
    (s.add (some e) r).added = true := by
  rw [add_some]; split <;> rfl

lemma drain_zero (r : TransportResult) (s : Sender) (q : List (Option AnalyticsEvent)) :
    drainLoop r s q 0 = { state := s, remaining := q, batches := [] } := by
  cases q <;> rfl

lemma drain_nil (r : TransportResult) (s : Sender) (n : Nat) :
    drainLoop r s [] (n + 1) = { state := s, remaining := [], batches := [] } := rfl

lemma drain_cons_none (r : TransportResult) (s : Sender)
    (q : List (Option AnalyticsEvent)) (n : Nat) :
    drainLoop r s (none :: q) (n + 1)
      = { state := s, remaining := q, batches := [] } := by
  simp [drainLoop, add_none]

lemma drain_cons_some (r : TransportResult) (s : Sender) (e : AnalyticsEvent)
    (q : List (Option AnalyticsEvent)) (n : Nat) :
    drainLoop r s (some e :: q) (n + 1)
      = { state := (drainLoop r (s.add (some e) r).state q n).state,
          remaining := (drainLoop r (s.add (some e) r).state q n).remaining,
          batches := (s.add (some e) r).sent.toList
            ++ (drainLoop r (s.add (some e) r).state q n).batches } := by
  simp [drainLoop, add_added]

/-- The inner drain consumes a prefix of the queue, and what it sent plus
what is still batched is exactly what was batched before plus the non-nil
events of that prefix. -/
lemma drain_spec (r : TransportResult) (fuel : Nat) :
    ∀ (s : Sender) (q : List (Option AnalyticsEvent)),
      ∃ t, q = t ++ (drainLoop r s q fuel).remaining ∧
        ((drainLoop r s q fuel).batches).flatten ++ (drainLoop r s q fuel).state.events
          = s.events ++ someElems t := by
  induction fuel with
  | zero =>
    intro s q
    exact ⟨[], by simp [drain_zero, someElems]⟩
  | succ n ih =>
    intro s q
    cases q with
    | nil => exact ⟨[], by simp [drain_nil, someElems]⟩
    | cons e q =>
      cases e with
      | none =>
        refine ⟨[none], ?_, ?_⟩
        · simp [drain_cons_none]
        · simp [drain_cons_none, someElems]
      | some e =>
        obtain ⟨t, ht, hj⟩ := ih (s.add (some e) r).state q
        refine ⟨some e :: t, ?_, ?_⟩
        · rw [drain_cons_some]
          simpa using ht
        · rw [drain_cons_some]
          have h2 := add_join s (some e) r
          simp only [Option.toList_some] at h2
          simp only [List.flatten_append, List.append_assoc, hj]
          rw [← List.append_assoc, h2, someElems_cons]
          simp

lemma drain_inv (r : TransportResult) (fuel : Nat) :
    ∀ (s : Sender) (q : List (Option AnalyticsEvent)),
      Inv s → Inv (drainLoop r s q fuel).state := by
  induction fuel with
  | zero => intro s q h; simpa [drain_zero]
  | succ n ih =>
    intro s q h
    cases q with
    | nil => simpa [drain_nil]
    | cons e q =>
      cases e with
      | none => simpa [drain_cons_none]
      | some e =>
        rw [drain_cons_some]
        exact ih _ _ (add_inv s (some e) r h)

lemma drain_bnd (r : TransportResult) (fuel : Nat) :
    ∀ (s : Sender) (q : List (Option AnalyticsEvent)),
      Bnd s → Bnd (drainLoop r s q fuel).state := by
  induction fuel with
  | zero => intro s q h; simpa [drain_zero]
  | succ n ih =>
    intro s q h
    cases q with
    | nil => simpa [drain_nil]
    | cons e q =>
      cases e with
      | none => simpa [drain_cons_none]
      | some e =>
        rw [drain_cons_some]
        exact ih _ _ (add_bnd s (some e) r h)

lemma drain_batches_ne (r : TransportResult) (fuel : Nat) :
    ∀ (s : Sender) (q : List (Option AnalyticsEvent)) (b : List AnalyticsEvent),
      b ∈ (drainLoop r s q fuel).batches → b ≠ [] := by
  induction fuel with
  | zero => intro s q b hb; simp [drain_zero] at hb
  | succ n ih =>
    intro s q b hb
    cases q with
    | nil => simp [drain_nil] at hb
    | cons e q =>
      cases e with
      | none => simp [drain_cons_none] at hb
      | some e =>
        rw [drain_cons_some] at hb
        simp only [List.mem_append] at hb
        rcases hb with hb | hb
        · rcases Option.mem_toList.mp hb with hs
          exact add_sent_ne s (some e) r b hs
        · exact ih _ _ _ hb

lemma drain_batches_len (r : TransportResult) (fuel : Nat) :
    ∀ (s : Sender) (q : List (Option AnalyticsEvent)),
      Inv s → Bnd s →
      ∀ b ∈ (drainLoop r s q fuel).batches, b.length ≤ send_threshold + 1 := by
  induction fuel with
  | zero => intro s q _ _ b hb; simp [drain_zero] at hb
  | succ n ih =>
    intro s q hi hbd b hb
    cases q with
    | nil => simp [drain_nil] at hb
    | cons e q =>
      cases e with
      | none => simp [drain_cons_none] at hb
      | some e =>
        rw [drain_cons_some] at hb
        simp only [List.mem_append] at hb
        rcases hb with hb | hb
        · exact add_sent_len s (some e) r hi hbd b (Option.mem_toList.mp hb)
        · exact ih _ _ (add_inv s (some e) r hi) (add_bnd s (some e) r hbd) b hb

lemma runF_zero (r : TransportResult) (s : Sender)
    (q : List (Option AnalyticsEvent)) (fuels : List Nat) :
    runLoopF r 0 s q fuels = [] := by
  cases q <;> rfl

lemma runF_nil (r : TransportResult) (fuel : Nat) (s : Sender) (fuels : List Nat) :
    runLoopF r fuel s [] fuels = [] := by
  cases fuel <;> rfl

lemma runF_cons (r : TransportResult) (n : Nat) (s : Sender)
    (e : Option AnalyticsEvent) (q : List (Option AnalyticsEvent)) (fuels : List Nat) :
    runLoopF r (n + 1) s (e :: q) fuels
      = (s.add e r).sent.toList
        ++ (drainLoop r (s.add e r).state q (fuels.headD 0)).batches
        ++ ((drainLoop r (s.add e r).state q (fuels.headD 0)).state.send r).sent.toList
        ++ runLoopF r n
             ((drainLoop r (s.add e r).state q (fuels.headD 0)).state.send r).state
             (drainLoop r (s.add e r).state q (fuels.headD 0)).remaining
             fuels.tail := rfl

/-- Everything the loop sends, concatenated, is what was batched on entry
followed by the non-nil events of the queue (provided the loop has fuel for
the whole queue, which `Sender.run` always supplies). -/
lemma runF_join (r : TransportResult) :
    ∀ (fuel : Nat) (s : Sender) (q : List (Option AnalyticsEvent)) (fuels : List Nat),
      Inv s → q.length ≤ fuel → q ≠ [] →
      (runLoopF r fuel s q fuels).flatten = s.events ++ someElems q := by
  intro fuel
  induction fuel with
  | zero =>
    intro s q fuels _ hle hne
    cases q with
    | nil => exact absurd rfl hne
    | cons e q => simp at hle
  | succ n ih =>
    intro s q fuels hi hle hne
    cases q with
    | nil => exact absurd rfl hne
    | cons e q =>
      obtain ⟨t, ht, hj⟩ := drain_spec r (fuels.headD 0) (s.add e r).state q
      have hia : Inv (s.add e r).state := add_inv s e r hi
      have hid : Inv (drainLoop r (s.add e r).state q (fuels.headD 0)).state :=
        drain_inv r (fuels.headD 0) _ _ hia
      have ha' : ∀ Z : List AnalyticsEvent,
          ((s.add e r).sent.toList).flatten ++ ((s.add e r).state.events ++ Z)
            = s.events ++ (e.toList ++ Z) := by
        intro Z
        rw [← List.append_assoc, add_join, List.append_assoc]
      have hj' : ∀ Z : List AnalyticsEvent,
          ((drainLoop r (s.add e r).state q (fuels.headD 0)).batches).flatten
              ++ ((drainLoop r (s.add e r).state q (fuels.headD 0)).state.events ++ Z)
            = (s.add e r).state.events ++ (someElems t ++ Z) := by
        intro Z
        rw [← List.append_assoc, hj, List.append_assoc]
      cases hrem : (drainLoop r (s.add e r).state q (fuels.headD 0)).remaining with
      | nil =>
        have hfl := send_flush (drainLoop r (s.add e r).state q (fuels.headD 0)).state r hid
        rw [hrem] at ht
        simp only [List.append_nil] at ht
        rw [runF_cons, hrem, runF_nil]
        simp only [List.flatten_append, List.flatten_nil, List.append_nil,
          List.append_assoc]
        rw [hfl, hj, ha', ← ht, someElems_cons]
      | cons e' q' =>
        have hsj := send_join (drainLoop r (s.add e r).state q (fuels.headD 0)).state r
        have hsj' : ∀ Z : List AnalyticsEvent,
            (((drainLoop r (s.add e r).state q (fuels.headD 0)).state.send r).sent.toList).flatten
                ++ ((((drainLoop r (s.add e r).state q (fuels.headD 0)).state.send r).state.events) ++ Z)
              = (drainLoop r (s.add e r).state q (fuels.headD 0)).state.events ++ Z := by
          intro Z
          rw [← List.append_assoc, hsj]
        have hlen : (e' :: q').length ≤ n := by
          have hq : q.length = t.length + (e' :: q').length := by
            rw [ht, hrem, List.length_append]
          simp only [List.length_cons] at hle
          omega
        have hrec := ih (((drainLoop r (s.add e r).state q (fuels.headD 0)).state.send r).state)
          (e' :: q') fuels.tail (send_inv _ r hid) hlen (by simp)
        rw [hrem] at ht
        rw [runF_cons, hrem]
        simp only [List.flatten_append, List.append_assoc]
        rw [hrec, hsj', hj', ha']
        simp [ht, someElems_cons, someElems_append, List.append_assoc]

/-- The batches the loop passes to the transport are never empty. -/
lemma runF_ne (r : TransportResult) :
    ∀ (fuel : Nat) (s : Sender) (q : List (Option AnalyticsEvent)) (fuels : List Nat),
      Inv s → ∀ b ∈ runLoopF r fuel s q fuels, b ≠ [] := by
  intro fuel
  induction fuel with
  | zero => intro s q fuels _ b hb; simp [runF_zero] at hb
  | succ n ih =>
    intro s q fuels hi b hb
    cases q with
    | nil => simp [runF_nil] at hb
    | cons e q =>
      rw [runF_cons] at hb
      have hia : Inv (s.add e r).state := add_inv s e r hi
      have hid : Inv (drainLoop r (s.add e r).state q (fuels.headD 0)).state :=
        drain_inv r (fuels.headD 0) _ _ hia
      simp only [List.mem_append] at hb
      rcases hb with ((hb | hb) | hb) | hb
      · exact add_sent_ne s e r b (Option.mem_toList.mp hb)
      · exact drain_batches_ne r (fuels.headD 0) _ _ b hb
      · exact send_sent_ne _ r hid b (Option.mem_toList.mp hb)
      · exact ih _ _ _ (send_inv _ r hid) b hb

/-- Every batch the loop passes to the transport has at most
`send_threshold + 1` events. -/
lemma runF_len (r : TransportResult) :
    ∀ (fuel : Nat) (s : Sender) (q : List (Option AnalyticsEvent)) (fuels : List Nat),
      Inv s → Bnd s → ∀ b ∈ runLoopF r fuel s q fuels,
        b.length ≤ send_threshold + 1 := by
  intro fuel
  induction fuel with
  | zero => intro s q fuels _ _ b hb; simp [runF_zero] at hb
  | succ n ih =>
    intro s q fuels hi hbd b hb
    cases q with
    | nil => simp [runF_nil] at hb
    | cons e q =>
      rw [runF_cons] at hb
      have hia : Inv (s.add e r).state := add_inv s e r hi
      have hba : Bnd (s.add e r).state := add_bnd s e r hbd
      have hid : Inv (drainLoop r (s.add e r).state q (fuels.headD 0)).state :=
        drain_inv r (fuels.headD 0) _ _ hia
      have hbd' : Bnd (drainLoop r (s.add e r).state q (fuels.headD 0)).state :=
        drain_bnd r (fuels.headD 0) _ _ hba
      simp only [List.mem_append] at hb
      rcases hb with ((hb | hb) | hb) | hb
      · exact add_sent_len s e r hi hbd b (Option.mem_toList.mp hb)
      · exact drain_batches_len r (fuels.headD 0) _ _ hia hba b hb
      · exact send_sent_len _ r hid hbd' b (Option.mem_toList.mp hb)
      · exact ih _ _ _ (send_inv _ r hid) (send_bnd _ r hbd') b hb

/-- The concatenation of all batches `Sender.run` passes to the transport is
exactly the sequence of non-nil events enqueued, whatever the schedule and
the transport outcome. -/
lemma run_join (r : TransportResult) (q : List (Option AnalyticsEvent))
    (fuels : List Nat) :
    (Sender.run r q fuels).flatten = someElems q := by
  cases q with
  | nil => rfl
  | cons e q =>
    have h := runF_join r (e :: q).length newSender (e :: q) fuels rfl (le_refl _)
      (by simp)
    simpa [Sender.run, newSender, Sender.reset] using h

lemma add_tr (s : Sender) (e : Option AnalyticsEvent) (r r' : TransportResult) :
    s.add e r = s.add e r' := by
  cases e
  · rfl
  · rw [add_some, add_some]

lemma send_tr_state (s : Sender) (r r' : TransportResult) :
    (s.send r).state = (s.send r').state := by
  rw [send_state, send_state]

lemma send_tr_sent (s : Sender) (r r' : TransportResult) :
    (s.send r).sent = (s.send r').sent := by
  rw [send_sent, send_sent]

lemma drain_tr (r r' : TransportResult) (fuel : Nat) :
    ∀ (s : Sender) (q : List (Option AnalyticsEvent)),
      drainLoop r s q fuel = drainLoop r' s q fuel := by
  induction fuel with
  | zero => intro s q; rw [drain_zero, drain_zero]
  | succ n ih =>
    intro s q
    cases q with
    | nil => rw [drain_nil, drain_nil]
    | cons e q =>
      cases e with
      | none => rw [drain_cons_none, drain_cons_none]
      | some e =>
        rw [drain_cons_some, drain_cons_some, ← add_tr s (some e) r r',
          ih (s.add (some e) r).state q]

lemma runF_tr (r r' : TransportResult) :
    ∀ (fuel : Nat) (s : Sender) (q : List (Option AnalyticsEvent)) (fuels : List Nat),
      runLoopF r fuel s q fuels = runLoopF r' fuel s q fuels := by
  intro fuel
  induction fuel with
  | zero => intro s q fuels; rw [runF_zero, runF_zero]
  | succ n ih =>
    intro s q fuels
    cases q with
    | nil => rw [runF_nil, runF_nil]
    | cons e q =>
      rw [runF_cons, runF_cons, ← add_tr s e r r',
        ← drain_tr r r' (fuels.headD 0) (s.add e r).state q,
        ← send_tr_sent (drainLoop r (s.add e r).state q (fuels.headD 0)).state r r',
        ← send_tr_state (drainLoop r (s.add e r).state q (fuels.headD 0)).state r r',
        ih]

/-- The trace of batches is independent of every transport outcome. -/
lemma run_tr (r r' : TransportResult) (q : List (Option AnalyticsEvent))
    (fuels : List Nat) : Sender.run r q fuels = Sender.run r' q fuels := by
  unfold Sender.run
  exact runF_tr r r' q.length newSender q fuels

/-- No batch in the trace is empty. -/
lemma run_ne (r : TransportResult) (q : List (Option AnalyticsEvent))
    (fuels : List Nat) : ∀ b ∈ Sender.run r q fuels, b ≠ [] := by
  unfold Sender.run
  exact runF_ne r q.length newSender q fuels rfl

/-- No batch in the trace exceeds `send_threshold + 1` events. -/
lemma run_len (r : TransportResult) (q : List (Option AnalyticsEvent))
    (fuels : List Nat) :
    ∀ b ∈ Sender.run r q fuels, b.length ≤ send_threshold + 1 := by
  unfold Sender.run
  exact runF_len r q.length newSender q fuels rfl (by simp [newSender, Sender.reset, Bnd])

/-- An event whose `function` is empty and whose `data` map is nil, the case
the spec says must have those fields omitted from the wire format. -/
def emptyFieldsEvent : AnalyticsEvent :=
  { timestamp := 0, consumerId := "", method := "GET", url := "/",
    function := "", responseUS := 1, statusCode := 200, data := none }

/-- C1: for any sequence of events enqueued by a single producer before
close(), with no transport failures (every request answered HTTP 200), the
concatenation of all batches passed to the transport, in call order, equals
the original enqueued sequence, whatever the drain schedule. -/
theorem order_preservation (events : List AnalyticsEvent) (fuels : List Nat) :
    (Sender.run (.status 200) (events.map some) fuels).flatten = events := by
  rw [run_join, someElems_map_some]

/-- C2: once the background loop has processed the whole queue — which is
what Close() waits for before returning — every event enqueued before the
close is contained in some batch passed to send, for every schedule and
every transport outcome (success or failure alike). -/
theorem close_completeness (r : TransportResult) (events : List AnalyticsEvent)
    (fuels : List Nat) (e : AnalyticsEvent) (he : e ∈ events) :
    ∃ b ∈ Sender.run r (events.map some) fuels, e ∈ b := by
  have h : e ∈ (Sender.run r (events.map some) fuels).flatten := by
    rw [run_join, someElems_map_some]
    exact he
  exact List.mem_flatten.mp h

theorem close_completeness_witness :
    ∃ b ∈ Sender.run (.status 200) [some (ev 1)] [0], ev 1 ∈ b :=
  close_completeness (.status 200) [ev 1] [0] (ev 1) (by simp)

/-- C3: whenever appending an event pushes the count above the threshold
T = 90, send fires at once on the partial accumulator (the 90 batched
events plus the triggering one) and the accumulator is reset before the
drain continues; in particular 95 events drained with no delay yield a
first batch of exactly 91 events and a second of the remaining 4. -/
theorem threshold_flush (s : Sender) (e : AnalyticsEvent) (r : TransportResult)
    (h : s.count + 1 > send_threshold) :
    s.add (some e) r
        = { state := { events := [], count := 0 }, added := true,
            sent := some (s.events ++ [e]) }
    ∧ (Sender.run (.status 200)
         ((List.range 95).map (fun n => some (ev n))) [94]).map List.length
        = [91, 4] := by
  constructor
  · rw [add_some, if_pos h]
  · decide

theorem threshold_flush_witness :
    Sender.add { events := [], count := 90 } (some (ev 0)) (.status 200)
        = { state := { events := [], count := 0 }, added := true,
            sent := some [ev 0] }
    ∧ (Sender.run (.status 200)
         ((List.range 95).map (fun n => some (ev n))) [94]).map List.length
        = [91, 4] := by
  have h := threshold_flush { events := [], count := 90 } (ev 0) (.status 200)
    (by decide)
  simpa using h

/-- C4: send is a no-op on an empty accumulator — no serialization, no
outbound request, no log line, state untouched — and consequently no batch
passed to the transport during a run is ever empty. -/
theorem empty_batch_suppression (r : TransportResult) (s : Sender)
    (q : List (Option AnalyticsEvent)) (fuels : List Nat) (h : s.count = 0) :
    s.send r = { state := s, sent := none, log := [] }
    ∧ ∀ b ∈ Sender.run r q fuels, b ≠ [] := by
  constructor
  · simp [Sender.send, h]
  · exact run_ne r q fuels

theorem empty_batch_suppression_witness :
    Sender.send { events := [], count := 0 } .connectionError
        = { state := { events := [], count := 0 }, sent := none, log := [] } :=
  (empty_batch_suppression .connectionError { events := [], count := 0 }
    [] [] rfl).1

/-- C5: send on a non-empty accumulator always hands the whole batch to the
transport and fully clears the accumulator, whatever the transport outcome;
hence over one run each enqueued event occurs in the concatenated batches
exactly as many times as it was enqueued — never dropped from the trace,
never retried, never duplicated. -/
theorem send_clears_exactly_once (s : Sender) (r : TransportResult)
    (events : List AnalyticsEvent) (fuels : List Nat) (e : AnalyticsEvent)
    (h : s.count ≠ 0) :
    (s.send r).state = { events := [], count := 0 }
    ∧ (s.send r).sent = some s.events
    ∧ ((Sender.run r (events.map some) fuels).flatten).count e
        = events.count e := by
  refine ⟨?_, ?_, ?_⟩
  · rw [send_state, if_neg h]
  · rw [send_sent, if_neg h]
  · rw [run_join, someElems_map_some]

theorem send_clears_exactly_once_witness :
    (Sender.send { events := [ev 1], count := 1 } .connectionError).state
        = { events := [], count := 0 }
    ∧ (Sender.send { events := [ev 1], count := 1 } .connectionError).sent
        = some [ev 1]
    ∧ ((Sender.run .connectionError [some (ev 2)] [0]).flatten).count (ev 2)
        = [ev 2].count (ev 2) :=
  send_clears_exactly_once { events := [ev 1], count := 1 } .connectionError
    [ev 2] [0] (ev 2) (by decide)

/-- C6: every failure mode inside send — marshal error, request-construction
error, connection error, non-200 status — is only logged: send returns
normally with the same state and the same batch handed over as on success,
no retry happens, and the whole batch trace of the dispatch loop is
unchanged, so subsequent events are still accepted and sent. -/
theorem failure_isolation (s : Sender) (r r' : TransportResult)
    (q : List (Option AnalyticsEvent)) (fuels : List Nat) (c : Nat)
    (h : s.count ≠ 0) (hc : c ≠ 200) :
    ((s.send r).state = (s.send r').state ∧ (s.send r).sent = (s.send r').sent)
    ∧ Sender.run r q fuels = Sender.run r' q fuels
    ∧ ((s.send .marshalError).log = ["Couldn't marshal json for analytics."]
       ∧ (s.send .requestBuildError).log = ["Failed to build analytics POST."]
       ∧ (s.send .connectionError).log = ["Failed to post analytics events."]
       ∧ (s.send (.status c)).log = ["Failure return for analytics post."]) := by
  refine ⟨⟨send_tr_state s r r', send_tr_sent s r r'⟩, run_tr r r' q fuels,
    ?_, ?_, ?_, ?_⟩
  all_goals simp [Sender.send, h, hc]

theorem failure_isolation_witness :
    ((Sender.send { events := [ev 1], count := 1 } .marshalError).state
        = (Sender.send { events := [ev 1], count := 1 } (.status 200)).state
      ∧ (Sender.send { events := [ev 1], count := 1 } .marshalError).sent
        = (Sender.send { events := [ev 1], count := 1 } (.status 200)).sent)
    ∧ Sender.run .marshalError [some (ev 1)] [0]
        = Sender.run (.status 200) [some (ev 1)] [0]
    ∧ ((Sender.send { events := [ev 1], count := 1 } .marshalError).log
          = ["Couldn't marshal json for analytics."]
       ∧ (Sender.send { events := [ev 1], count := 1 } .requestBuildError).log
          = ["Failed to build analytics POST."]
       ∧ (Sender.send { events := [ev 1], count := 1 } .connectionError).log
          = ["Failed to post analytics events."]
       ∧ (Sender.send { events := [ev 1], count := 1 } (.status 500)).log
          = ["Failure return for analytics post."]) :=
  failure_isolation { events := [ev 1], count := 1 } .marshalError (.status 200)
    [some (ev 1)] [0] 500 (by decide) (by decide)

/-- C7 as stated is false on the code: with events e1, nil, e2 all available
to one drain, the nil received mid-drain makes add return false, which
breaks the inner loop — the drain does not continue — so the run produces
the two batches [[e1], [e2]] instead of the single batch [[e1, e2]] that
continuing the drain past the nil would produce. -/
theorem nil_stops_drain_counterexample :
    Sender.run (.status 200) [some (ev 1), none, some (ev 2)] [2]
        = [[ev 1], [ev 2]]
    ∧ Sender.run (.status 200) [some (ev 1), none, some (ev 2)] [2]
        ≠ [[ev 1, ev 2]] := by
  constructor
  · decide
  · decide

/-- C7 amended: a nil pulled from the queue is skipped — it is never added
to the batch — but it does stop the current drain: add returns false, the
inner loop breaks leaving the rest of the queue untouched, the batch
accumulated so far is sent, and the loop returns to its blocking read, so
the remaining events are still processed in later cycles; over the whole
run the concatenated batches are exactly the non-nil enqueued events. -/
theorem nil_skipped_breaks_drain (r : TransportResult) (s : Sender)
    (q : List (Option AnalyticsEvent)) (fuel : Nat) (fuels : List Nat) :
    s.add none r = { state := s, added := false, sent := none }
    ∧ drainLoop r s (none :: q) (fuel + 1)
        = { state := s, remaining := q, batches := [] }
    ∧ (Sender.run r q fuels).flatten = someElems q :=
  ⟨add_none s r, drain_cons_none r s q fuel, run_join r q fuels⟩

/-- C8: the code diverges from the claim: for an event with empty `function`
and nil `data`, the serializer still emits both fields ("function":"" and
"data":null), because the `,omitempty` in the Go struct tags sits outside
the quoted tag value and is ignored by Go's tag parser, while the intended,
spec-described serializer omits them.  The remaining fields and their order
match the claim. -/
theorem marshal_omitempty_ineffective :
    (marshalEvent emptyFieldsEvent).keys
        = ["timestamp", "consumer_id", "method", "url", "function",
           "response_us", "status_code", "data"]
    ∧ (marshalEventOmitEmpty emptyFieldsEvent).keys
        = ["timestamp", "consumer_id", "method", "url",
           "response_us", "status_code"]
    ∧ marshalEvent emptyFieldsEvent
        = .obj [("timestamp", .num 0), ("consumer_id", .str ""),
                ("method", .str "GET"), ("url", .str "/"),
                ("function", .str ""), ("response_us", .num 1),
                ("status_code", .num 200), ("data", .null)] :=
  ⟨rfl, rfl, rfl⟩

/-- C9: a threshold flush fires exactly when the accumulated count exceeds
T = 90, so every batch passed to the transport over a whole run holds at
most T + 1 = 91 events, below the queue capacity C = 100. -/
theorem batch_size_bound (r : TransportResult) (q : List (Option AnalyticsEvent))
    (fuels : List Nat) (s : Sender) (e : AnalyticsEvent)
    (b : List AnalyticsEvent) (hb : b ∈ Sender.run r q fuels) :
    (b.length ≤ send_threshold + 1 ∧ b.length ≤ channel_size)
    ∧ ((s.add (some e) r).sent ≠ none ↔ s.count + 1 > send_threshold) := by
  refine ⟨⟨run_len r q fuels b hb, ?_⟩, ?_⟩
  · have hl := run_len r q fuels b hb
    unfold send_threshold at hl
    unfold channel_size
    omega
  · rw [add_some]
    split
    · rename_i hgt
      simpa using hgt
    · rename_i hle
      simpa using hle

theorem batch_size_bound_witness :
    (([ev 1] : List AnalyticsEvent).length ≤ send_threshold + 1
      ∧ ([ev 1] : List AnalyticsEvent).length ≤ channel_size)
    ∧ ((Sender.add { events := [], count := 0 } (some (ev 2)) (.status 200)).sent
          ≠ none
        ↔ 0 + 1 > send_threshold) :=
  batch_size_bound (.status 200) [some (ev 1)] [0]
    { events := [], count := 0 } (ev 2) [ev 1] (by decide)

/-- C10: the count field equals the length of the events slice in the state
built by NewSender, and this equality is preserved by add, by reset and by
send. -/
theorem count_length_invariant (s : Sender) (e : Option AnalyticsEvent)
    (r : TransportResult) (h : Inv s) :
    Inv newSender ∧ Inv (s.add e r).state ∧ Inv s.reset ∧ Inv (s.send r).state :=
  ⟨rfl, add_inv s e r h, rfl, send_inv s r h⟩

theorem count_length_invariant_witness :
    Inv newSender
    ∧ Inv (Sender.add { events := [ev 1], count := 1 } (some (ev 2))
        (.status 200)).state
    ∧ Inv (Sender.reset { events := [ev 1], count := 1 })
    ∧ Inv (Sender.send { events := [ev 1], count := 1 } (.status 200)).state :=
  count_length_invariant { events := [ev 1], count := 1 } (some (ev 2))
    (.status 200) rfl

end Apinalytics
